import Mathlib

/-!
Verification of the PLY parser (`src/parser/mod.rs` of ply-rs).

The file shallowly embeds the parser facade and header state machine of
`parser/mod.rs`.  The grammar line classifier (`grammar` crate), the
ASCII/binary payload decoders (`parser/ascii.rs`, `parser/binary.rs`) and
the `ply` data-model module (`KeyMap` etc.) are not part of the visible
source, so those definitions are modelled from the specification and
marked as such in their doc comments.

Strings are modelled as `List Char`; an input stream is modelled as the
list of its lines, each line still carrying its terminator characters
(this is exactly the decomposition `BufRead::read_line` produces).
Binary payload bytes are modelled as `List Nat`.
-/

namespace PlyRs

/-- `ply::ScalarType`: the eight fixed-width numeric kinds. -/
inductive ScalarType where
  | char | uchar | short | ushort | int | uint | float | double
deriving DecidableEq, Repr

/-- `ply::PropertyType`: a scalar, or a list with an index (count) type and
a value type. -/
inductive PropertyType where
  | scalar (t : ScalarType)
  | list (index : ScalarType) (value : ScalarType)
deriving DecidableEq, Repr

/-- `ply::PropertyDef`: a named, typed property. -/
structure PropertyDef where
  name : List Char
  ty : PropertyType
deriving DecidableEq, Repr

/-- `ply::ElementDef`: a named element with a declared record count and an
ordered list of property definitions.  The source keeps properties in a
`KeyMap` (ordered, keyed by name); we model it as an ordered list. -/
structure ElementDef where
  name : List Char
  count : Nat
  properties : List PropertyDef
deriving DecidableEq, Repr

/-- `ply::Version`: non-negative major/minor pair, structural equality. -/
structure Version where
  major : Nat
  minor : Nat
deriving DecidableEq, Repr

/-- `ply::Encoding`. -/
inductive Encoding where
  | ascii | binaryBigEndian | binaryLittleEndian
deriving DecidableEq, Repr

/-- `ply::Header`. `elements` is the ordered `KeyMap` of element
definitions, modelled as an ordered list keyed by `ElementDef.name`. -/
structure Header where
  encoding : Encoding
  version : Version
  objInfos : List (List Char)
  comments : List (List Char)
  elements : List ElementDef
deriving DecidableEq, Repr

/-- A decoded scalar value.  Integer kinds carry their (range-checked)
integer value.  Modelled from the spec: floating kinds are out of the
claims' scope; an ASCII float keeps its (syntax-checked) token, a binary
float keeps its raw bits, which is faithful up to the numeric
interpretation of the bit pattern. -/
inductive ScalarValue where
  | int (v : Int)
  | floatTok (tok : List Char)
  | floatBits (bits : Nat)
deriving DecidableEq, Repr

/-- A decoded property value: scalar or list of scalars. -/
inductive Property where
  | scalar (t : ScalarType) (v : ScalarValue)
  | list (t : ScalarType) (vs : List ScalarValue)
deriving DecidableEq, Repr

/-- `ply::DefaultElement` through the `PropertyAccess` capability:
the decoder writes each decoded property under its name, in the element's
declared property order.  Modelled from the spec as the ordered
name-to-value association list. -/
abbrev DefaultElement := List (List Char × Property)

/-- `ply::Payload`: ordered mapping from element name to its record
sequence. -/
abbrev Payload := List (List Char × List DefaultElement)

/-- `ply::Ply`: the fully parsed artifact. -/
structure Ply where
  header : Header
  payload : Payload
deriving DecidableEq, Repr

/-- `parser::Line`: the classifier's per-line token. -/
inductive Line where
  | magicNumber
  | format (e : Encoding) (v : Version)
  | comment (c : List Char)
  | objInfo (o : List Char)
  | element (e : ElementDef)
  | property (p : PropertyDef)
  | endHeader
deriving DecidableEq, Repr

/-- The parser's error taxonomy.  The source reports every failure as an
`io::Error` distinguished by its message; each constructor here stands
for one distinct error site/message family of the source (named after the
spec's taxonomy).  `panic` models reaching one of the two `unwrap()` calls
of `__read_header` on `None`; the no-panic claim proves it unreachable. -/
inductive PError where
  | expectedMagicNumber (line : List Char)
  | unexpectedMagic (line : List Char)
  | contradictingFormat (newE : Encoding) (newV : Version)
      (oldE : Encoding) (oldV : Version)
  | duplicateElement (name : List Char)
  | propertyBeforeElement (name : List Char)
  | duplicateProperty (name : List Char)
  | missingFormat
  | couldntParseLine (line : List Char)
  | malformedRecord
  | unexpectedEof
  | panic
deriving DecidableEq, Repr

/-! ## Line classifier

Modelled from the spec: the `grammar` crate is external to the visible
source.  Spec section 6 gives the per-line grammar: trailing line
terminators (LF, CR, CRLF) and trailing whitespace are tolerated;
keywords are case-sensitive; scalar type names accept both spellings. -/

/-- Is this character a space or tab? -/
def isSpaceChar (c : Char) : Bool := c = ' ' || c = '\t'

/-- Is this character tolerated at end of line (whitespace or line
terminator)? -/
def isTrailChar (c : Char) : Bool :=
  c = ' ' || c = '\t' || c = '\r' || c = '\n'

/-- Drop tolerated trailing whitespace/terminators from a line. -/
def stripTrail (l : List Char) : List Char :=
  (l.reverse.dropWhile isTrailChar).reverse

/-- Worker for `splitWs`: `acc` is the current token, reversed. -/
def splitWsAux : List Char → List Char → List (List Char)
  | [], acc => if acc = [] then [] else [acc.reverse]
  | c :: rest, acc =>
    if isSpaceChar c then
      if acc = [] then splitWsAux rest []
      else acc.reverse :: splitWsAux rest []
    else splitWsAux rest (c :: acc)

/-- Split a line into whitespace-separated tokens. -/
def splitWs (l : List Char) : List (List Char) :=
  splitWsAux l []

/-- Parse a non-empty all-digit token as a `Nat`. -/
def digitsToNat (cs : List Char) : Option Nat :=
  if cs ≠ [] ∧ cs.all Char.isDigit then
    some (cs.foldl (fun acc c => acc * 10 + (c.toNat - '0'.toNat)) 0)
  else none

/-- Parse an optionally signed decimal integer token. -/
def parseIntTok (cs : List Char) : Option Int :=
  match cs with
  | '-' :: rest => (digitsToNat rest).map (fun n => -(n : Int))
  | '+' :: rest => (digitsToNat rest).map (fun n => (n : Int))
  | _ => (digitsToNat cs).map (fun n => (n : Int))

/-- Modelled from the spec: scalar type name tokens, both spellings,
case-sensitive. -/
def scalarTypeOfTok (tok : List Char) : Option ScalarType :=
  if tok = "char".data ∨ tok = "int8".data then some .char
  else if tok = "uchar".data ∨ tok = "uint8".data then some .uchar
  else if tok = "short".data ∨ tok = "int16".data then some .short
  else if tok = "ushort".data ∨ tok = "uint16".data then some .ushort
  else if tok = "int".data ∨ tok = "int32".data then some .int
  else if tok = "uint".data ∨ tok = "uint32".data then some .uint
  else if tok = "float".data ∨ tok = "float32".data then some .float
  else if tok = "double".data ∨ tok = "float64".data then some .double
  else none

/-- Modelled from the spec: encoding tokens of the `format` line. -/
def encodingOfTok (tok : List Char) : Option Encoding :=
  if tok = "ascii".data then some .ascii
  else if tok = "binary_big_endian".data then some .binaryBigEndian
  else if tok = "binary_little_endian".data then some .binaryLittleEndian
  else none

/-- Split a token at dots (`acc` is the current piece, reversed). -/
def splitDotAux : List Char → List Char → List (List Char)
  | [], acc => [acc.reverse]
  | '.' :: rest, acc => acc.reverse :: splitDotAux rest []
  | c :: rest, acc => splitDotAux rest (c :: acc)

/-- Modelled from the spec: parse `<major>.<minor>` with non-negative
integer components. -/
def parseVersionTok (tok : List Char) : Option Version :=
  match splitDotAux tok [] with
  | [ma, mi] => do
    let major ← digitsToNat ma
    let minor ← digitsToNat mi
    pure { major := major, minor := minor }
  | _ => none

/-- Does `l` start with keyword `kw` followed by free text (or nothing)?
Returns the free text with leading spaces dropped. -/
def freeTextAfter (kw : List Char) (l : List Char) : Option (List Char) :=
  if l = kw then some []
  else if l.take (kw.length + 1) = kw ++ [' '] then
    some ((l.drop (kw.length + 1)).dropWhile isSpaceChar)
  else none

/-- Modelled from the spec: the line classifier (`grammar::line`).
Classifies one raw header line into a `Line` token or fails.  Trailing
whitespace and any of LF/CR/CRLF are tolerated; `comment` and `obj_info`
take free text; the remaining forms are strict token sequences. -/
def grammarLine (raw : List Char) : Except Unit Line :=
  let l := stripTrail raw
  if l = "ply".data then .ok .magicNumber
  else if l = "end_header".data then .ok .endHeader
  else match freeTextAfter "comment".data l with
  | some c => .ok (.comment c)
  | none => match freeTextAfter "obj_info".data l with
    | some o => .ok (.objInfo o)
    | none => match splitWs l with
      | [f, enc, ver] =>
        if f = "format".data then
          match encodingOfTok enc, parseVersionTok ver with
          | some e, some v => .ok (.format e v)
          | _, _ => .error ()
        else if f = "element".data then
          match digitsToNat ver with
          | some n => .ok (.element { name := enc, count := n, properties := [] })
          | none => .error ()
        else if f = "property".data then
          match scalarTypeOfTok enc with
          | some t => .ok (.property { name := ver, ty := .scalar t })
          | none => .error ()
        else .error ()
      | [f, li, it, vt, nm] =>
        if f = "property".data ∧ li = "list".data then
          match scalarTypeOfTok it, scalarTypeOfTok vt with
          | some i, some v => .ok (.property { name := nm, ty := .list i v })
          | _, _ => .error ()
        else .error ()
      | _ => .error ()

/-! ## Header reader (`Parser::__read_header`, in the visible source) -/

/-- Modelled from the spec: `KeyMap::<ElementDef>::add` (the `ply` module
is not in the visible source).  Appends to the ordered mapping; fails
with `DuplicateElement` when the name already exists. -/
def addElement (es : List ElementDef) (e : ElementDef) :
    Except PError (List ElementDef) :=
  if es.any (fun d => d.name = e.name) then .error (.duplicateElement e.name)
  else .ok (es ++ [e])

/-- Modelled from the spec: `KeyMap::<PropertyDef>::add`.  Appends to the
ordered mapping; fails with `DuplicateProperty` when the name already
exists on the element. -/
def addProperty (ps : List PropertyDef) (p : PropertyDef) :
    Except PError (List PropertyDef) :=
  if ps.any (fun q => q.name = p.name) then .error (.duplicateProperty p.name)
  else .ok (ps ++ [p])

/-- Modelled from the spec: `LinkedHashMap::pop_back` — removes and
returns the most recently inserted entry, preserving the order of the
remaining ones. -/
def popBack : List α → Option (α × List α)
  | [] => none
  | [x] => some (x, [])
  | x :: y :: xs => (popBack (y :: xs)).map (fun r => (r.1, x :: r.2))

/-- The mutable locals of `__read_header`'s line loop:
`header_form_ver`, `header_obj_infos`, `header_comments`,
`header_elements`. -/
structure HeaderState where
  formVer : Option (Encoding × Version)
  objInfos : List (List Char)
  comments : List (List Char)
  elements : List ElementDef
deriving DecidableEq, Repr

/-- The initial state of `__read_header`'s loop. -/
def initHeaderState : HeaderState :=
  { formVer := none, objInfos := [], comments := [], elements := [] }

/-- One iteration of `__read_header`'s `match line` (the `'readlines`
loop body), on an already-classified line.  Returns the next state and
whether `end_header` was seen.  The `popBack … none` branch is the
`pop_back().unwrap()` panic site of the source; the guard
`st.elements = []` in front of it mirrors `header_elements.is_empty()`. -/
def headerStep (raw : List Char) (st : HeaderState) (line : Line) :
    Except PError (HeaderState × Bool) :=
  match line with
  | .magicNumber => .error (.unexpectedMagic raw)
  | .format e v =>
    match st.formVer with
    | none => .ok ({ st with formVer := some (e, v) }, false)
    | some f =>
      if f ≠ (e, v) then .error (.contradictingFormat e v f.1 f.2)
      else .ok (st, false)
  | .objInfo o => .ok ({ st with objInfos := st.objInfos ++ [o] }, false)
  | .comment c => .ok ({ st with comments := st.comments ++ [c] }, false)
  | .element e =>
    match addElement st.elements e with
    | .error err => .error err
    | .ok es => .ok ({ st with elements := es }, false)
  | .property p =>
    if st.elements = [] then .error (.propertyBeforeElement p.name)
    else
      match popBack st.elements with
      | none => .error .panic
      | some (e, rest) =>
        match addProperty e.properties p with
        | .error err => .error err
        | .ok ps =>
          match addElement rest { e with properties := ps } with
          | .error err => .error err
          | .ok es => .ok ({ st with elements := es }, false)
  | .endHeader => .ok (st, true)

/-- The `'readlines` loop of `__read_header`: read one line, classify it,
process it, until `end_header`.  At physical end of stream
`read_line` yields the empty string, which the classifier rejects
(`grammarLine [] = .error ()`, see `grammarLine_nil`), so the `[]` case
is that error. -/
def readHeaderLoop : List (List Char) → HeaderState →
    Except PError (HeaderState × List (List Char))
  | [], _ => .error (.couldntParseLine [])
  | raw :: rest, st =>
    match grammarLine raw with
    | .error _ => .error (.couldntParseLine raw)
    | .ok line =>
      match headerStep raw st line with
      | .error e => .error e
      | .ok (st2, done) =>
        if done then .ok (st2, rest) else readHeaderLoop rest st2

/-- `Parser::__read_header`: expect the magic number on the first line,
run the loop, then require a recorded format and assemble the `Header`.
The `header_form_ver.unwrap()` after the `is_none` guard is embedded as
the `match` on `st.formVer`.  Returns the unread remainder of the stream
(the payload). -/
def __read_header (input : List (List Char)) :
    Except PError (Header × List (List Char)) :=
  match input with
  | [] => .error (.expectedMagicNumber [])
  | raw :: rest =>
    match grammarLine raw with
    | .ok .magicNumber =>
      match readHeaderLoop rest initHeaderState with
      | .error e => .error e
      | .ok (st, remaining) =>
        match st.formVer with
        | none => .error .missingFormat
        | some f =>
          .ok ({ encoding := f.1, version := f.2, objInfos := st.objInfos,
                 comments := st.comments, elements := st.elements }, remaining)
    | .ok _ => .error (.expectedMagicNumber raw)
    | .error _ => .error (.expectedMagicNumber raw)

/-! ## ASCII payload decoder

Modelled from the spec: `parser/ascii.rs` is not in the visible source.
One text line per record; whitespace-separated tokens consumed
left-to-right per declared property; a scalar consumes one token, a list
consumes a count token of its index type then that many value tokens;
missing or unparsable tokens are a `MalformedRecord`; extra trailing
tokens are tolerated. -/

/-- Integer range of an integer scalar kind (`none` for float kinds). -/
def intRange (t : ScalarType) : Option (Int × Int) :=
  match t with
  | .char => some (-128, 127)
  | .uchar => some (0, 255)
  | .short => some (-32768, 32767)
  | .ushort => some (0, 65535)
  | .int => some (-(2 ^ 31), 2 ^ 31 - 1)
  | .uint => some (0, 2 ^ 32 - 1)
  | .float => none
  | .double => none

/-- Is `cs` a valid mantissa: `digits+`, `digits+ . digits*`, or
`. digits+`? -/
def isMantissa (cs : List Char) : Bool :=
  let ip := cs.takeWhile Char.isDigit
  match cs.dropWhile Char.isDigit with
  | [] => ip ≠ []
  | '.' :: frac => frac.all Char.isDigit && (ip ≠ [] || frac ≠ [])
  | _ => false

/-- Is `cs` an empty or valid exponent part: `(e|E) sign? digits+`? -/
def isExpPart (cs : List Char) : Bool :=
  match cs with
  | [] => true
  | c :: r =>
    (c = 'e' || c = 'E') &&
      (match r with
       | '+' :: d => d ≠ [] && d.all Char.isDigit
       | '-' :: d => d ≠ [] && d.all Char.isDigit
       | d => d ≠ [] && d.all Char.isDigit)

/-- Modelled from the spec: a floating token in standard
decimal/scientific text form. -/
def isFloatTok (cs : List Char) : Bool :=
  let body := match cs with
    | '+' :: r => r
    | '-' :: r => r
    | _ => cs
  isMantissa (body.takeWhile (fun c => c.isDigit || c = '.')) &&
    isExpPart (body.dropWhile (fun c => c.isDigit || c = '.'))

/-- Modelled from the spec: parse one ASCII token as a scalar of kind
`t`; integer kinds are range-checked, float kinds are syntax-checked and
kept as tokens. -/
def parseScalarAscii (t : ScalarType) (tok : List Char) : Option ScalarValue :=
  match intRange t with
  | some r =>
    match parseIntTok tok with
    | some v => if r.1 ≤ v ∧ v ≤ r.2 then some (.int v) else none
    | none => none
  | none => if isFloatTok tok then some (.floatTok tok) else none

/-- A decoded list count: a non-negative integer scalar (a float or a
negative count is not a usable list length). -/
def countOfValue : ScalarValue → Option Nat
  | .int v => if v < 0 then none else some v.toNat
  | _ => none

/-- Consume and parse exactly `n` tokens of scalar kind `t`. -/
def takeParse (t : ScalarType) : Nat → List (List Char) →
    Option (List ScalarValue × List (List Char))
  | 0, toks => some ([], toks)
  | _ + 1, [] => none
  | n + 1, tk :: rest =>
    match parseScalarAscii t tk with
    | none => none
    | some v =>
      match takeParse t n rest with
      | none => none
      | some r => some (v :: r.1, r.2)

/-- Consume tokens left-to-right, one declared property at a time.
Leftover trailing tokens are tolerated. -/
def readAsciiProps : List PropertyDef → List (List Char) →
    Except PError DefaultElement
  | [], _ => .ok []
  | p :: ps, toks =>
    match p.ty with
    | .scalar t =>
      match toks with
      | [] => .error .malformedRecord
      | tk :: rest =>
        match parseScalarAscii t tk with
        | none => .error .malformedRecord
        | some v =>
          match readAsciiProps ps rest with
          | .error e => .error e
          | .ok d => .ok ((p.name, .scalar t v) :: d)
    | .list it vt =>
      match toks with
      | [] => .error .malformedRecord
      | tk :: rest =>
        match (parseScalarAscii it tk).bind countOfValue with
        | none => .error .malformedRecord
        | some n =>
          match takeParse vt n rest with
          | none => .error .malformedRecord
          | some r =>
            match readAsciiProps ps r.2 with
            | .error e => .error e
            | .ok d => .ok ((p.name, .list vt r.1) :: d)

/-- Modelled from the spec: `Parser::__read_ascii_element` (in the
missing `parser/ascii.rs`): split one record line into tokens and decode
the element's properties in declared order. -/
def __read_ascii_element (line : List Char) (edef : ElementDef) :
    Except PError DefaultElement :=
  readAsciiProps edef.properties (splitWs (stripTrail line))

/-- `read_line` on a line stream: at end of stream it yields the empty
string. -/
def readLineL (lines : List (List Char)) : List Char × List (List Char) :=
  match lines with
  | [] => ([], [])
  | l :: rest => (l, rest)

/-- Modelled from the spec: read `n` ASCII records for one element, one
line per record. -/
def readAsciiRecords (edef : ElementDef) : Nat → List (List Char) →
    Except PError (List DefaultElement × List (List Char))
  | 0, lines => .ok ([], lines)
  | n + 1, lines =>
    let lr := readLineL lines
    match __read_ascii_element lr.1 edef with
    | .error e => .error e
    | .ok d =>
      match readAsciiRecords edef n lr.2 with
      | .error e => .error e
      | .ok r => .ok (d :: r.1, r.2)

/-- Modelled from the spec: `Parser::__read_ascii_payload_for_element`
(in the missing `parser/ascii.rs`): read exactly `edef.count` records. -/
def __read_ascii_payload_for_element (edef : ElementDef)
    (lines : List (List Char)) :
    Except PError (List DefaultElement × List (List Char)) :=
  readAsciiRecords edef edef.count lines

/-! ## Binary payload decoder

Modelled from the spec: `parser/binary.rs` is not in the visible source.
One algorithm parameterized by byte order; a scalar reads exactly its
fixed byte width, a list reads its index type's width to get a count and
then that many values; premature end of stream is `UnexpectedEof`, the
only binary failure.  A list count is the unsigned interpretation of the
index field's bytes (exact for the unsigned index kinds; total, so the
only failure mode stays `UnexpectedEof`). -/

/-- Modelled from the spec: canonical byte width of each scalar kind. -/
def byteWidth : ScalarType → Nat
  | .char => 1
  | .uchar => 1
  | .short => 2
  | .ushort => 2
  | .int => 4
  | .uint => 4
  | .float => 4
  | .double => 8

/-- byteorder's `BigEndian`/`LittleEndian` parameter. -/
inductive ByteOrder where
  | big | little
deriving DecidableEq, Repr

/-- Modelled from the spec: read exactly `w` bytes or fail with
`UnexpectedEof`. -/
def readBytes (w : Nat) (s : List Nat) : Except PError (List Nat × List Nat) :=
  if w ≤ s.length then .ok (s.take w, s.drop w) else .error .unexpectedEof

/-- Unsigned value of big-endian bytes (each byte taken mod 256). -/
def beValue (bytes : List Nat) : Nat :=
  bytes.foldl (fun acc b => acc * 256 + b % 256) 0

/-- Unsigned value of bytes in the chosen byte order. -/
def orderedValue (bo : ByteOrder) (bytes : List Nat) : Nat :=
  match bo with
  | .big => beValue bytes
  | .little => beValue bytes.reverse

/-- Which scalar kinds are signed integers. -/
def isSignedInt : ScalarType → Bool
  | .char => true
  | .short => true
  | .int => true
  | _ => false

/-- Interpret `byteWidth t` bytes as a scalar of kind `t` in byte order
`bo`: two's complement for signed kinds, raw bits for float kinds. -/
def interpretScalar (bo : ByteOrder) (t : ScalarType) (bytes : List Nat) :
    ScalarValue :=
  let u := orderedValue bo bytes
  match t with
  | .float => .floatBits u
  | .double => .floatBits u
  | _ =>
    if isSignedInt t ∧ 2 ^ (8 * byteWidth t - 1) ≤ u then
      .int ((u : Int) - 2 ^ (8 * byteWidth t))
    else .int u

/-- Read one binary scalar of kind `t`. -/
def readBinaryScalar (bo : ByteOrder) (t : ScalarType) (s : List Nat) :
    Except PError (ScalarValue × List Nat) :=
  match readBytes (byteWidth t) s with
  | .error e => .error e
  | .ok r => .ok (interpretScalar bo t r.1, r.2)

/-- Read `n` binary scalars of kind `vt` (a list property's values). -/
def readBinaryList (bo : ByteOrder) (vt : ScalarType) : Nat → List Nat →
    Except PError (List ScalarValue × List Nat)
  | 0, s => .ok ([], s)
  | n + 1, s =>
    match readBinaryScalar bo vt s with
    | .error e => .error e
    | .ok v =>
      match readBinaryList bo vt n v.2 with
      | .error e => .error e
      | .ok r => .ok (v.1 :: r.1, r.2)

/-- Decode one record's properties in declared order from binary bytes. -/
def readBinaryProps (bo : ByteOrder) : List PropertyDef → List Nat →
    Except PError (DefaultElement × List Nat)
  | [], s => .ok ([], s)
  | p :: ps, s =>
    match p.ty with
    | .scalar t =>
      match readBinaryScalar bo t s with
      | .error e => .error e
      | .ok v =>
        match readBinaryProps bo ps v.2 with
        | .error e => .error e
        | .ok r => .ok ((p.name, .scalar t v.1) :: r.1, r.2)
    | .list it vt =>
      match readBytes (byteWidth it) s with
      | .error e => .error e
      | .ok c =>
        match readBinaryList bo vt (orderedValue bo c.1) c.2 with
        | .error e => .error e
        | .ok vs =>
          match readBinaryProps bo ps vs.2 with
          | .error e => .error e
          | .ok r => .ok ((p.name, .list vt vs.1) :: r.1, r.2)

/-- Modelled from the spec: `Parser::__read_binary_element` (in the
missing `parser/binary.rs`), byte order as a parameter. -/
def __read_binary_element (bo : ByteOrder) (edef : ElementDef)
    (s : List Nat) : Except PError (DefaultElement × List Nat) :=
  readBinaryProps bo edef.properties s

/-- Modelled from the spec: read `n` binary records for one element. -/
def readBinaryRecords (bo : ByteOrder) (edef : ElementDef) :
    Nat → List Nat → Except PError (List DefaultElement × List Nat)
  | 0, s => .ok ([], s)
  | n + 1, s =>
    match __read_binary_element bo edef s with
    | .error e => .error e
    | .ok d =>
      match readBinaryRecords bo edef n d.2 with
      | .error e => .error e
      | .ok r => .ok (d.1 :: r.1, r.2)

/-- Modelled from the spec: `Parser::__read_binary_payload_for_element`
(in the missing `parser/binary.rs`): read exactly `edef.count` records. -/
def __read_binary_payload_for_element (bo : ByteOrder) (edef : ElementDef)
    (s : List Nat) : Except PError (List DefaultElement × List Nat) :=
  readBinaryRecords bo edef edef.count s

/-! ## Payload dispatcher and the `Parser` facade (visible source) -/

/-- The raw bytes of the unread remainder of a line stream (each stored
line still carries its terminator, so joining restores the stream). -/
def linesToBytes (lines : List (List Char)) : List Nat :=
  lines.flatten.map Char.toNat

/-- The ASCII arm of `__read_payload`: decode every element of the header
in declared order. -/
def __read_payload_ascii : List ElementDef → List (List Char) →
    Except PError (Payload × List (List Char))
  | [], lines => .ok ([], lines)
  | e :: es, lines =>
    match __read_ascii_payload_for_element e lines with
    | .error err => .error err
    | .ok d =>
      match __read_payload_ascii es d.2 with
      | .error err => .error err
      | .ok r => .ok ((e.name, d.1) :: r.1, r.2)

/-- The binary arms of `__read_payload` (one algorithm, byte order as a
parameter). -/
def __read_payload_binary (bo : ByteOrder) : List ElementDef → List Nat →
    Except PError (Payload × List Nat)
  | [], s => .ok ([], s)
  | e :: es, s =>
    match __read_binary_payload_for_element bo e s with
    | .error err => .error err
    | .ok d =>
      match __read_payload_binary bo es d.2 with
      | .error err => .error err
      | .ok r => .ok ((e.name, d.1) :: r.1, r.2)

/-- `Parser::__read_payload`: dispatch on the header's encoding and
decode the payload for every declared element in order. -/
def __read_payload (h : Header) (rest : List (List Char)) :
    Except PError Payload :=
  match h.encoding with
  | .ascii => (__read_payload_ascii h.elements rest).map (fun r => r.1)
  | .binaryBigEndian =>
    (__read_payload_binary .big h.elements (linesToBytes rest)).map
      (fun r => r.1)
  | .binaryLittleEndian =>
    (__read_payload_binary .little h.elements (linesToBytes rest)).map
      (fun r => r.1)

/-- `parser::Parser`: holds only a `PhantomData` marker, i.e. no state. -/
structure Parser where
deriving DecidableEq, Repr

/-- `Parser::new`. -/
def Parser.new : Parser := {}

/-- `Parser::read_ply`: header then payload, assembled into a `Ply`. -/
def Parser.read_ply (_ : Parser) (input : List (List Char)) :
    Except PError Ply :=
  match __read_header input with
  | .error e => .error e
  | .ok h =>
    match __read_payload h.1 h.2 with
    | .error e => .error e
    | .ok payload => .ok { header := h.1, payload := payload }

/-- `Parser::read_header`. -/
def Parser.read_header (_ : Parser) (input : List (List Char)) :
    Except PError Header :=
  (__read_header input).map (fun r => r.1)

/-- `Parser::read_header_line`: classify one line, wrapping a classifier
failure into the parser's error type. -/
def Parser.read_header_line (_ : Parser) (line : List Char) :
    Except PError Line :=
  match grammarLine line with
  | .ok l => .ok l
  | .error _ => .error (.couldntParseLine line)

/-- `Parser::read_payload_for_element`: decode one element's records with
the strategy selected by the header's encoding. -/
def Parser.read_payload_for_element (_ : Parser)
    (input : List (List Char)) (edef : ElementDef) (h : Header) :
    Except PError (List DefaultElement) :=
  match h.encoding with
  | .ascii =>
    (__read_ascii_payload_for_element edef input).map (fun r => r.1)
  | .binaryBigEndian =>
    (__read_binary_payload_for_element .big edef (linesToBytes input)).map
      (fun r => r.1)
  | .binaryLittleEndian =>
    (__read_binary_payload_for_element .little edef
      (linesToBytes input)).map (fun r => r.1)

/-- `Parser::read_big_endian_element`. -/
def Parser.read_big_endian_element (_ : Parser) (s : List Nat)
    (edef : ElementDef) : Except PError DefaultElement :=
  (__read_binary_element .big edef s).map (fun r => r.1)

/-- `Parser::read_little_endian_element`. -/
def Parser.read_little_endian_element (_ : Parser) (s : List Nat)
    (edef : ElementDef) : Except PError DefaultElement :=
  (__read_binary_element .little edef s).map (fun r => r.1)

/-- `Parser::read_ascii_element`. -/
def Parser.read_ascii_element (_ : Parser) (line : List Char)
    (edef : ElementDef) : Except PError DefaultElement :=
  __read_ascii_element line edef

/-! ## Theorems -/

/-- The whole ASCII file of claim C1, one line per entry. -/
def c1Input : List (List Char) :=
  ["ply\n".data, "format ascii 1.0\n".data, "element point 2\n".data,
   "property int x\n".data, "property int y\n".data, "end_header\n".data,
   "-7 5\n".data, "2 4\n".data]

/-- C1: parsing the whole ASCII file with header `ply / format ascii 1.0 /
element point 2 / property int x / property int y / end_header` and
payload lines `-7 5` and `2 4` via `read_ply` succeeds, and the payload
holds exactly two records for element "point": first x = -7, y = 5,
second x = 2, y = 4. -/
theorem claim_c1 :
    (Parser.new.read_ply c1Input).map Ply.payload
      = .ok [("point".data,
          [[("x".data, Property.scalar .int (.int (-7))),
            ("y".data, Property.scalar .int (.int 5))],
           [("x".data, Property.scalar .int (.int 2)),
            ("y".data, Property.scalar .int (.int 4))]])] := by
  rfl

/-- The face element of claim C3: a single property
`property list uchar int vertex_index`. -/
def c3Face : ElementDef :=
  { name := "face".data, count := 1,
    properties := [{ name := "vertex_index".data, ty := .list .uchar .int }] }

/-- C3: decoding the ASCII record `3 0 1 2` for an element whose single
property is `property list uchar int vertex_index` succeeds with one
list-valued property equal to [0, 1, 2]; the leading `3` is consumed as
the count and is not among the stored values. -/
theorem claim_c3 :
    Parser.new.read_ascii_element "3 0 1 2".data c3Face
      = .ok [("vertex_index".data,
          .list .int [.int 0, .int 1, .int 2])] := by
  rfl

/-- Reading `n` ASCII records yields exactly `n` records on success. -/
theorem readAsciiRecords_length (edef : ElementDef) :
    ∀ (n : Nat) (lines : List (List Char)) r,
      readAsciiRecords edef n lines = .ok r → r.1.length = n := by
  intro n
  induction n with
  | zero =>
    intro lines r h
    simp only [readAsciiRecords] at h
    cases h
    rfl
  | succ n ih =>
    intro lines r h
    simp only [readAsciiRecords] at h
    split at h
    · exact absurd h (by simp)
    · split at h
      · exact absurd h (by simp)
      next r2 h2 =>
        cases h
        simpa using ih _ _ h2

/-- Reading `n` binary records yields exactly `n` records on success. -/
theorem readBinaryRecords_length (bo : ByteOrder) (edef : ElementDef) :
    ∀ (n : Nat) (s : List Nat) r,
      readBinaryRecords bo edef n s = .ok r → r.1.length = n := by
  intro n
  induction n with
  | zero =>
    intro s r h
    simp only [readBinaryRecords] at h
    cases h
    rfl
  | succ n ih =>
    intro s r h
    simp only [readBinaryRecords] at h
    split at h
    · exact absurd h (by simp)
    · split at h
      · exact absurd h (by simp)
      next r2 h2 =>
        cases h
        simpa using ih _ _ h2

/-- A decode result that is a success or the `UnexpectedEof` error. -/
def okOrEof (r : Except PError α) : Prop :=
  (∃ v, r = .ok v) ∨ r = .error .unexpectedEof

/-- `readBytes` succeeds or fails with `UnexpectedEof`. -/
theorem readBytes_okOrEof (w : Nat) (s : List Nat) :
    okOrEof (readBytes w s) := by
  unfold okOrEof readBytes
  split
  · exact .inl ⟨_, rfl⟩
  · exact .inr rfl

/-- An `okOrEof` result that is an error is the `UnexpectedEof` error. -/
theorem okOrEof_error {r : Except PError α} (h : okOrEof r) (e : PError)
    (he : r = .error e) : e = .unexpectedEof := by
  rcases h with ⟨v, hv⟩ | hv
  · rw [he] at hv; exact absurd hv (by simp)
  · rw [he] at hv; simpa using hv

/-- `readBinaryScalar` succeeds or fails with `UnexpectedEof`. -/
theorem readBinaryScalar_okOrEof (bo : ByteOrder) (t : ScalarType)
    (s : List Nat) : okOrEof (readBinaryScalar bo t s) := by
  unfold readBinaryScalar
  split
  next e he => cases okOrEof_error (readBytes_okOrEof _ _) e he; exact .inr rfl
  next v hv => exact .inl ⟨_, rfl⟩

/-- `readBinaryList` succeeds or fails with `UnexpectedEof`. -/
theorem readBinaryList_okOrEof (bo : ByteOrder) (vt : ScalarType) :
    ∀ (n : Nat) (s : List Nat), okOrEof (readBinaryList bo vt n s) := by
  intro n
  induction n with
  | zero => intro s; exact .inl ⟨_, rfl⟩
  | succ n ih =>
    intro s
    simp only [readBinaryList]
    split
    next e he =>
      cases okOrEof_error (readBinaryScalar_okOrEof bo vt s) e he
      exact .inr rfl
    next v hv =>
      split
      next e he => cases okOrEof_error (ih v.2) e he; exact .inr rfl
      next r hr => exact .inl ⟨_, rfl⟩

/-- `readBinaryProps` succeeds or fails with `UnexpectedEof`. -/
theorem readBinaryProps_okOrEof (bo : ByteOrder) :
    ∀ (ps : List PropertyDef) (s : List Nat),
      okOrEof (readBinaryProps bo ps s) := by
  intro ps
  induction ps with
  | nil => intro s; exact .inl ⟨_, rfl⟩
  | cons p ps ih =>
    intro s
    simp only [readBinaryProps]
    split
    · split
      next e he =>
        cases okOrEof_error (readBinaryScalar_okOrEof _ _ _) e he
        exact .inr rfl
      next v hv =>
        split
        next e he => cases okOrEof_error (ih v.2) e he; exact .inr rfl
        next r hr => exact .inl ⟨_, rfl⟩
    · split
      next e he =>
        cases okOrEof_error (readBytes_okOrEof _ _) e he
        exact .inr rfl
      next c hc =>
        split
        next e he =>
          cases okOrEof_error (readBinaryList_okOrEof _ _ _ _) e he
          exact .inr rfl
        next vs hvs =>
          split
          next e he => cases okOrEof_error (ih vs.2) e he; exact .inr rfl
          next r hr => exact .inl ⟨_, rfl⟩

/-- `readBinaryRecords` succeeds or fails with `UnexpectedEof`. -/
theorem readBinaryRecords_okOrEof (bo : ByteOrder) (edef : ElementDef) :
    ∀ (n : Nat) (s : List Nat), okOrEof (readBinaryRecords bo edef n s) := by
  intro n
  induction n with
  | zero => intro s; exact .inl ⟨_, rfl⟩
  | succ n ih =>
    intro s
    simp only [readBinaryRecords]
    split
    next e he =>
      cases okOrEof_error (readBinaryProps_okOrEof bo edef.properties s) e he
      exact .inr rfl
    next d hd =>
      split
      next e he => cases okOrEof_error (ih d.2) e he; exact .inr rfl
      next r hr => exact .inl ⟨_, rfl⟩

/-- On success, the ASCII payload pairs each declared element, in order,
with a record sequence of exactly its declared count. -/
theorem read_payload_ascii_lengths :
    ∀ (es : List ElementDef) (lines : List (List Char)) r,
      __read_payload_ascii es lines = .ok r →
      List.Forall₂ (fun e kv => kv.1 = e.name ∧ kv.2.length = e.count)
        es r.1 := by
  intro es
  induction es with
  | nil =>
    intro lines r h
    simp only [__read_payload_ascii] at h
    cases h
    exact .nil
  | cons e es ih =>
    intro lines r h
    simp only [__read_payload_ascii] at h
    split at h
    · exact absurd h (by simp)
    next d h1 =>
      split at h
      · exact absurd h (by simp)
      next r2 h2 =>
        cases h
        exact .cons ⟨rfl, readAsciiRecords_length e e.count lines d h1⟩
          (ih _ _ h2)

/-- On success, the binary payload pairs each declared element, in order,
with a record sequence of exactly its declared count. -/
theorem read_payload_binary_lengths (bo : ByteOrder) :
    ∀ (es : List ElementDef) (s : List Nat) r,
      __read_payload_binary bo es s = .ok r →
      List.Forall₂ (fun e kv => kv.1 = e.name ∧ kv.2.length = e.count)
        es r.1 := by
  intro es
  induction es with
  | nil =>
    intro s r h
    simp only [__read_payload_binary] at h
    cases h
    exact .nil
  | cons e es ih =>
    intro s r h
    simp only [__read_payload_binary] at h
    split at h
    · exact absurd h (by simp)
    next d h1 =>
      split at h
      · exact absurd h (by simp)
      next r2 h2 =>
        cases h
        exact .cons ⟨rfl, readBinaryRecords_length bo e e.count s d h1⟩
          (ih _ _ h2)

/-- C2: whenever payload decoding succeeds, the decoded sequence for each
declared element has length exactly its declared count (never shorter,
never longer); and the binary per-element decoder either succeeds (with
exactly the declared count of records) or fails with `UnexpectedEof` —
in particular a stream too short for the declared records can only
produce the `UnexpectedEof` error, never a short sequence. -/
theorem claim_c2 :
    (∀ (h : Header) (rest : List (List Char)) (pl : Payload),
        __read_payload h rest = .ok pl →
        List.Forall₂ (fun e kv => kv.1 = e.name ∧ kv.2.length = e.count)
          h.elements pl)
    ∧ (∀ (lines : List (List Char)) (edef : ElementDef) r,
        __read_ascii_payload_for_element edef lines = .ok r →
        r.1.length = edef.count)
    ∧ (∀ (bo : ByteOrder) (edef : ElementDef) (s : List Nat) r,
        __read_binary_payload_for_element bo edef s = .ok r →
        r.1.length = edef.count)
    ∧ (∀ (bo : ByteOrder) (edef : ElementDef) (s : List Nat),
        (∃ r, __read_binary_payload_for_element bo edef s = .ok r)
        ∨ __read_binary_payload_for_element bo edef s
            = .error .unexpectedEof) := by
  refine ⟨?_, ?_, ?_, ?_⟩
  · intro h rest pl hok
    unfold __read_payload at hok
    match henc : h.encoding with
    | .ascii =>
      rw [henc] at hok
      cases h1 : __read_payload_ascii h.elements rest with
      | error err => rw [h1] at hok; exact absurd hok (by simp [Except.map])
      | ok r =>
        rw [h1] at hok
        simp only [Except.map, Except.ok.injEq] at hok
        subst hok
        exact read_payload_ascii_lengths h.elements rest r h1
    | .binaryBigEndian =>
      rw [henc] at hok
      cases h1 : __read_payload_binary .big h.elements (linesToBytes rest) with
      | error err => rw [h1] at hok; exact absurd hok (by simp [Except.map])
      | ok r =>
        rw [h1] at hok
        simp only [Except.map, Except.ok.injEq] at hok
        subst hok
        exact read_payload_binary_lengths .big h.elements _ r h1
    | .binaryLittleEndian =>
      rw [henc] at hok
      cases h1 : __read_payload_binary .little h.elements
          (linesToBytes rest) with
      | error err => rw [h1] at hok; exact absurd hok (by simp [Except.map])
      | ok r =>
        rw [h1] at hok
        simp only [Except.map, Except.ok.injEq] at hok
        subst hok
        exact read_payload_binary_lengths .little h.elements _ r h1
  · intro lines edef r h
    exact readAsciiRecords_length edef edef.count lines r h
  · intro bo edef s r h
    exact readBinaryRecords_length bo edef edef.count s r h
  · intro bo edef s
    exact readBinaryRecords_okOrEof bo edef edef.count s

/-- The "point" element definition of the C1/C2 example. -/
def pointDef : ElementDef :=
  { name := "point".data, count := 2,
    properties := [{ name := "x".data, ty := .scalar .int },
                   { name := "y".data, ty := .scalar .int }] }

/-- The header of the C1/C2 example. -/
def pointHeader : Header :=
  { encoding := .ascii, version := { major := 1, minor := 0 },
    objInfos := [], comments := [], elements := [pointDef] }

/-- A one-`short` element declared twice over, for the truncation case. -/
def shortDef : ElementDef :=
  { name := "v".data, count := 2,
    properties := [{ name := "x".data, ty := .scalar .short }] }

/-- C2 witness: the concrete header of C1 decodes its two payload lines
into sequences matching the declared counts, and a two-record element of
one `short` each over a three-byte stream hits `UnexpectedEof`. -/
theorem claim_c2_witness :
    List.Forall₂
      (fun (e : ElementDef) (kv : List Char × List DefaultElement) =>
        kv.1 = e.name ∧ kv.2.length = e.count)
      [pointDef]
      [("point".data,
        [[("x".data, Property.scalar .int (.int (-7))),
          ("y".data, Property.scalar .int (.int 5))],
         [("x".data, Property.scalar .int (.int 2)),
          ("y".data, Property.scalar .int (.int 4))]])]
    ∧ ((∃ r, __read_binary_payload_for_element .big shortDef [1, 2, 3]
          = .ok r)
        ∨ __read_binary_payload_for_element .big shortDef [1, 2, 3]
            = .error .unexpectedEof) := by
  constructor
  · exact claim_c2.1 pointHeader ["-7 5\n".data, "2 4\n".data] _ rfl
  · exact claim_c2.2.2.2 ByteOrder.big shortDef [1, 2, 3]

/-- `popBack` of a list with last element `x` yields `x` and the prefix,
in order. -/
theorem popBack_concat (pre : List α) (x : α) :
    popBack (pre ++ [x]) = some (x, pre) := by
  induction pre with
  | nil => rfl
  | cons a pre ih =>
    cases pre with
    | nil => rfl
    | cons b pre2 =>
      have h : popBack ((a :: b :: pre2) ++ [x])
          = (popBack ((b :: pre2) ++ [x])).map (fun r => (r.1, a :: r.2)) :=
        rfl
      rw [h, ih]
      rfl

/-- C4: during header reading, the first format line is recorded; a later
format line whose decoded (encoding, version) pair differs structurally
from the recorded one fails with the error naming both definitions (and
`__read_header` propagates any loop error); an identical later format
line is accepted and leaves the loop state unchanged. -/
theorem claim_c4 :
    ∀ (raw : List Char) (st : HeaderState) (e : Encoding) (v : Version)
      (rest : List (List Char)),
      grammarLine raw = .ok (.format e v) →
      ((st.formVer = none →
        readHeaderLoop (raw :: rest) st
          = readHeaderLoop rest { st with formVer := some (e, v) })
      ∧ (∀ f, st.formVer = some f → f ≠ (e, v) →
        readHeaderLoop (raw :: rest) st
          = .error (.contradictingFormat e v f.1 f.2))
      ∧ (∀ f, st.formVer = some f → f = (e, v) →
        readHeaderLoop (raw :: rest) st = readHeaderLoop rest st)
      ∧ (∀ (mag : List Char) (rest2 : List (List Char)) (err : PError),
        grammarLine mag = .ok .magicNumber →
        readHeaderLoop rest2 initHeaderState = .error err →
        __read_header (mag :: rest2) = .error err)) := by
  intro raw st e v rest hline
  refine ⟨?_, ?_, ?_, ?_⟩
  · intro hnone
    simp [readHeaderLoop, hline, headerStep, hnone]
  · intro f hsome hne
    simp [readHeaderLoop, hline, headerStep, hsome, hne]
  · intro f hsome hfeq
    simp [readHeaderLoop, hline, headerStep, hsome, hfeq]
  · intro mag rest2 err hmag hloop
    simp [__read_header, hmag, hloop]

/-- Loop state recording an earlier `format binary_big_endian 2.1`. -/
def c4State : HeaderState :=
  { formVer := some (.binaryBigEndian, { major := 2, minor := 1 }),
    objInfos := [], comments := [], elements := [] }

/-- C4 witness: after `format binary_big_endian 2.1`, the line
`format ascii 1.0` fails naming both definitions. -/
theorem claim_c4_witness :
    readHeaderLoop ["format ascii 1.0\n".data] c4State
      = .error (.contradictingFormat .ascii { major := 1, minor := 0 }
          .binaryBigEndian { major := 2, minor := 1 }) :=
  (claim_c4 "format ascii 1.0\n".data c4State .ascii
      { major := 1, minor := 0 } [] rfl).2.1
    (.binaryBigEndian, { major := 2, minor := 1 }) rfl (by decide)

/-- C5: a property line with no element declared yet fails with
`PropertyBeforeElement` citing the property; otherwise (when it is not a
duplicate) the property is appended to the most recently declared
element's property list, and the relative order of all previously
declared elements and of their properties is preserved. -/
theorem claim_c5 :
    ∀ (raw : List Char) (st : HeaderState) (p : PropertyDef)
      (rest : List (List Char)),
      grammarLine raw = .ok (.property p) →
      ((st.elements = [] →
        readHeaderLoop (raw :: rest) st
          = .error (.propertyBeforeElement p.name))
      ∧ (∀ (pre : List ElementDef) (last : ElementDef),
        st.elements = pre ++ [last] →
        last.properties.any (fun q => q.name = p.name) = false →
        pre.any (fun d => d.name = last.name) = false →
        readHeaderLoop (raw :: rest) st
          = readHeaderLoop rest
              { st with elements :=
                  pre ++ [{ last with
                    properties := last.properties ++ [p] }] })) := by
  intro raw st p rest hline
  constructor
  · intro hnil
    simp [readHeaderLoop, hline, headerStep, hnil]
  · intro pre last helts hnodup hre
    simp [readHeaderLoop, hline, headerStep, helts, popBack_concat,
      addProperty, addElement, hnodup, hre]

/-- Element `point 2` holding only the property `x`. -/
def pointX : ElementDef :=
  { name := "point".data, count := 2,
    properties := [{ name := "x".data, ty := .scalar .int }] }

/-- Element `point 2` holding properties `x` then `y`. -/
def pointXY : ElementDef :=
  { name := "point".data, count := 2,
    properties := [{ name := "x".data, ty := .scalar .int },
                   { name := "y".data, ty := .scalar .int }] }

/-- Loop state with one declared element `point` holding property `x`. -/
def c5State : HeaderState :=
  { formVer := some (.ascii, { major := 1, minor := 0 }),
    objInfos := [], comments := [], elements := [pointX] }

/-- C5 witness: with no element declared, `property int x` fails with
`PropertyBeforeElement`; with element `point` declared, `property int y`
is appended to it. -/
theorem claim_c5_witness :
    readHeaderLoop ["property int x\n".data] initHeaderState
      = .error (.propertyBeforeElement "x".data)
    ∧ readHeaderLoop ["property int y\n".data] c5State
      = readHeaderLoop [] { c5State with elements := [pointXY] } := by
  constructor
  · exact (claim_c5 "property int x\n".data initHeaderState
      { name := "x".data, ty := .scalar .int } [] rfl).1 rfl
  · exact (claim_c5 "property int y\n".data c5State
      { name := "y".data, ty := .scalar .int } [] rfl).2
      [] pointX (by simp [c5State]) (by rfl) (by rfl)

/-- C6: an element declaration whose name equals an already declared
element's name fails with `DuplicateElement`; a fresh name is appended at
the end, leaving the existing elements untouched and in order. -/
theorem claim_c6 :
    ∀ (raw : List Char) (st : HeaderState) (e : ElementDef)
      (rest : List (List Char)),
      grammarLine raw = .ok (.element e) →
      ((st.elements.any (fun d => d.name = e.name) = true →
        readHeaderLoop (raw :: rest) st = .error (.duplicateElement e.name))
      ∧ (st.elements.any (fun d => d.name = e.name) = false →
        readHeaderLoop (raw :: rest) st
          = readHeaderLoop rest { st with elements := st.elements ++ [e] })) := by
  intro raw st e rest hline
  constructor
  · intro hdup
    simp [readHeaderLoop, hline, headerStep, addElement, hdup]
  · intro hfresh
    simp [readHeaderLoop, hline, headerStep, addElement, hfresh]

/-- Element `face 3` with no properties yet. -/
def faceEmpty : ElementDef :=
  { name := "face".data, count := 3, properties := [] }

/-- Element `point 3` with no properties yet (the duplicate declaration). -/
def pointAgain : ElementDef :=
  { name := "point".data, count := 3, properties := [] }

/-- C6 witness: re-declaring `element point 3` after `point` exists fails
with `DuplicateElement`; declaring `element face 3` appends it. -/
theorem claim_c6_witness :
    readHeaderLoop ["element point 3\n".data] c5State
      = .error (.duplicateElement "point".data)
    ∧ readHeaderLoop ["element face 3\n".data] c5State
      = readHeaderLoop []
          { c5State with elements := c5State.elements ++ [faceEmpty] } := by
  constructor
  · exact (claim_c6 "element point 3\n".data c5State pointAgain [] rfl).1
      (by rfl)
  · exact (claim_c6 "element face 3\n".data c5State faceEmpty [] rfl).2
      (by rfl)

/-- C7: a property declaration whose name equals a property already
attached to the most recently declared element fails with
`DuplicateProperty`; the existing definition is not overwritten. -/
theorem claim_c7 :
    ∀ (raw : List Char) (st : HeaderState) (p : PropertyDef)
      (rest : List (List Char)) (pre : List ElementDef) (last : ElementDef),
      grammarLine raw = .ok (.property p) →
      st.elements = pre ++ [last] →
      last.properties.any (fun q => q.name = p.name) = true →
      readHeaderLoop (raw :: rest) st
        = .error (.duplicateProperty p.name) := by
  intro raw st p rest pre last hline helts hdup
  simp [readHeaderLoop, hline, headerStep, helts, popBack_concat,
    addProperty, hdup]

/-- C7 witness: re-declaring `property int x` on element `point`, which
already has `x`, fails with `DuplicateProperty`. -/
theorem claim_c7_witness :
    readHeaderLoop ["property int x\n".data] c5State
      = .error (.duplicateProperty "x".data) :=
  claim_c7 "property int x\n".data c5State
    { name := "x".data, ty := .scalar .int } [] [] pointX
    rfl (by simp [c5State]) (by rfl)

/-- The loop body signals termination (`done = true`) only on an
`end_header` line. -/
theorem headerStep_done :
    ∀ (raw : List Char) (st : HeaderState) (line : Line)
      (st2 : HeaderState),
      headerStep raw st line = .ok (st2, true) → line = .endHeader := by
  intro raw st line st2 h
  cases line with
  | magicNumber => simp [headerStep] at h
  | format e v =>
    simp only [headerStep] at h
    split at h
    · simp at h
    · split at h <;> simp at h
  | objInfo o => simp [headerStep] at h
  | comment c => simp [headerStep] at h
  | element e =>
    simp only [headerStep] at h
    split at h <;> simp at h
  | property p =>
    simp only [headerStep] at h
    split at h
    · simp at h
    · split at h
      · simp at h
      · split at h
        · simp at h
        · split at h <;> simp at h
  | endHeader => rfl

/-- If no line of the remaining input classifies as `end_header`, the
header loop never succeeds (it runs into the end of the stream, which
yields an unparsable empty line, or into some other error first). -/
theorem readHeaderLoop_no_end :
    ∀ (input : List (List Char)) (st : HeaderState),
      (∀ l ∈ input, grammarLine l ≠ .ok .endHeader) →
      ∀ r, readHeaderLoop input st ≠ .ok r := by
  intro input
  induction input with
  | nil =>
    intro st h r
    simp [readHeaderLoop]
  | cons raw rest ih =>
    intro st h r
    simp only [readHeaderLoop]
    cases hg : grammarLine raw with
    | error e => simp
    | ok line =>
      cases hs : headerStep raw st line with
      | error e => simp [hs]
      | ok p =>
        obtain ⟨st2, done⟩ := p
        cases done with
        | false =>
          simpa [hs] using
            ih st2 (fun l hl => h l (List.mem_cons_of_mem _ hl)) r
        | true =>
          exfalso
          apply h raw (List.mem_cons_self raw rest)
          rw [hg, headerStep_done raw st line st2 hs]

/-- C8: an input whose lines never include an end-of-header marker (so
the header loop reaches the physical end of the stream without seeing
one) makes `__read_header` return an error; it never returns a header
built from a truncated header section. -/
theorem claim_c8 :
    ∀ (input : List (List Char)),
      (∀ l ∈ input, grammarLine l ≠ .ok .endHeader) →
      ∃ err, __read_header input = .error err := by
  intro input h
  cases input with
  | nil => exact ⟨.expectedMagicNumber [], rfl⟩
  | cons raw rest =>
    have hrest : ∀ l ∈ rest, grammarLine l ≠ .ok .endHeader :=
      fun l hl => h l (List.mem_cons_of_mem _ hl)
    cases hg : grammarLine raw with
    | error e =>
      exact ⟨.expectedMagicNumber raw, by simp [__read_header, hg]⟩
    | ok line =>
      cases line with
      | magicNumber =>
        cases hl : readHeaderLoop rest initHeaderState with
        | error err => exact ⟨err, by simp [__read_header, hg, hl]⟩
        | ok r =>
          exact absurd hl (readHeaderLoop_no_end rest initHeaderState hrest r)
      | format e v => exact ⟨.expectedMagicNumber raw, by simp [__read_header, hg]⟩
      | comment c => exact ⟨.expectedMagicNumber raw, by simp [__read_header, hg]⟩
      | objInfo o => exact ⟨.expectedMagicNumber raw, by simp [__read_header, hg]⟩
      | element e => exact ⟨.expectedMagicNumber raw, by simp [__read_header, hg]⟩
      | property p => exact ⟨.expectedMagicNumber raw, by simp [__read_header, hg]⟩
      | endHeader => exact ⟨.expectedMagicNumber raw, by simp [__read_header, hg]⟩

/-- C8 witness: a stream that ends after `ply` and a format line, with no
`end_header`, is rejected. -/
theorem claim_c8_witness :
    ∃ err, __read_header ["ply\n".data, "format ascii 1.0\n".data]
      = .error err :=
  claim_c8 ["ply\n".data, "format ascii 1.0\n".data] (by
    intro l hl
    rcases List.mem_cons.mp hl with rfl | hl2
    · simp [show grammarLine "ply\n".data = .ok .magicNumber from rfl]
    · rcases List.mem_cons.mp hl2 with rfl | hl3
      · simp [show grammarLine "format ascii 1.0\n".data
          = .ok (.format .ascii { major := 1, minor := 0 }) from rfl]
      · cases hl3)

/-- Does this error model a reached panic (`unwrap()` on `None`)? -/
def isPanicErr : PError → Bool
  | .panic => true
  | _ => false

/-- Does a result model a reached panic? -/
def isPanic : Except PError α → Bool
  | .error e => isPanicErr e
  | .ok _ => false

/-- An error extracted from a panic-free result is itself panic-free
(errors are re-wrapped unchanged when results cross a return type). -/
theorem no_panic_error {r : Except PError α} (h : isPanic r = false)
    {e : PError} (he : r = .error e) : isPanicErr e = false := by
  rw [he] at h
  exact h

/-- A success-or-`UnexpectedEof` result is not a panic. -/
theorem okOrEof_no_panic {r : Except PError α} (h : okOrEof r) :
    isPanic r = false := by
  rcases h with ⟨v, hv⟩ | hv <;> rw [hv] <;> rfl

/-- An error extracted from a success-or-`UnexpectedEof` result is not
the panic marker. -/
theorem okOrEof_error_no_panic {r : Except PError α} (h : okOrEof r)
    {e : PError} (he : r = .error e) : isPanicErr e = false := by
  cases okOrEof_error h e he
  rfl

/-- Mapping a success value does not change panic status. -/
theorem isPanic_map (f : α → β) (r : Except PError α) :
    isPanic (r.map f) = isPanic r := by
  cases r with
  | ok v => rfl
  | error e => rfl

/-- `addElement` never panics (its only failure is `DuplicateElement`). -/
theorem addElement_no_panic (es : List ElementDef) (e : ElementDef) :
    isPanic (addElement es e) = false := by
  unfold addElement
  split <;> rfl

/-- `addProperty` never panics (its only failure is `DuplicateProperty`). -/
theorem addProperty_no_panic (ps : List PropertyDef) (p : PropertyDef) :
    isPanic (addProperty ps p) = false := by
  unfold addProperty
  split <;> rfl

/-- `popBack` of a non-empty list always returns a value — this is what
makes the `pop_back().unwrap()` behind the `is_empty` guard safe. -/
theorem popBack_isSome : ∀ (l : List α), l ≠ [] →
    (popBack l).isSome = true := by
  intro l
  induction l with
  | nil => intro h; exact absurd rfl h
  | cons x xs ih =>
    intro _
    cases xs with
    | nil => rfl
    | cons y ys =>
      cases hp : popBack (y :: ys) with
      | none =>
        have hs := ih (by simp)
        rw [hp] at hs
        cases hs
      | some q => simp [popBack, hp]

/-- No classified header line makes the loop body panic: the
`pop_back().unwrap()` site is unreachable behind its guard. -/
theorem headerStep_no_panic :
    ∀ (raw : List Char) (st : HeaderState) (line : Line),
      isPanic (headerStep raw st line) = false := by
  intro raw st line
  cases line with
  | magicNumber => rfl
  | format e v =>
    simp only [headerStep]
    split
    · rfl
    · split <;> rfl
  | objInfo o => rfl
  | comment c => rfl
  | element e =>
    simp only [headerStep]
    split
    next err he => exact no_panic_error (addElement_no_panic _ _) he
    next es2 he => rfl
  | property p =>
    simp only [headerStep]
    split
    · rfl
    next hne =>
      split
      next hp =>
        exfalso
        have hs := popBack_isSome st.elements hne
        rw [hp] at hs
        cases hs
      next e rest2 hp =>
        split
        next err he => exact no_panic_error (addProperty_no_panic _ _) he
        next ps hps =>
          split
          next err he => exact no_panic_error (addElement_no_panic _ _) he
          next es2 he => rfl
  | endHeader => rfl

/-- The header loop never panics. -/
theorem readHeaderLoop_no_panic :
    ∀ (input : List (List Char)) (st : HeaderState),
      isPanic (readHeaderLoop input st) = false := by
  intro input
  induction input with
  | nil => intro st; rfl
  | cons raw rest ih =>
    intro st
    simp only [readHeaderLoop]
    split
    · rfl
    next line hg =>
      split
      next e he => exact no_panic_error (headerStep_no_panic raw st line) he
      next st2 done hp =>
        split
        · rfl
        · exact ih st2

/-- `__read_header` never panics: both `unwrap()` calls sit behind their
guards. -/
theorem read_header_no_panic :
    ∀ (input : List (List Char)), isPanic (__read_header input) = false := by
  intro input
  cases input with
  | nil => rfl
  | cons raw rest =>
    simp only [__read_header]
    split
    · split
      next e he => exact no_panic_error (readHeaderLoop_no_panic rest initHeaderState) he
      next r hr =>
        split
        · rfl
        · rfl
    · rfl
    · rfl

/-- The ASCII property decoder never panics (its only failure is
`MalformedRecord`). -/
theorem readAsciiProps_no_panic :
    ∀ (ps : List PropertyDef) (toks : List (List Char)),
      isPanic (readAsciiProps ps toks) = false := by
  intro ps
  induction ps with
  | nil => intro toks; rfl
  | cons p ps ih =>
    intro toks
    simp only [readAsciiProps]
    split
    · split
      · rfl
      · split
        · rfl
        · split
          next e he => exact no_panic_error (ih _) he
          next d hd => rfl
    · split
      · rfl
      · split
        · rfl
        · split
          · rfl
          · split
            next e he => exact no_panic_error (ih _) he
            next d hd => rfl

/-- The ASCII record loop never panics. -/
theorem readAsciiRecords_no_panic (edef : ElementDef) :
    ∀ (n : Nat) (lines : List (List Char)),
      isPanic (readAsciiRecords edef n lines) = false := by
  intro n
  induction n with
  | zero => intro lines; rfl
  | succ n ih =>
    intro lines
    simp only [readAsciiRecords]
    split
    next e he => exact no_panic_error (readAsciiProps_no_panic _ _) he
    next d hd =>
      split
      next e he => exact no_panic_error (ih _) he
      next r hr => rfl

/-- The ASCII payload dispatcher never panics. -/
theorem read_payload_ascii_no_panic :
    ∀ (es : List ElementDef) (lines : List (List Char)),
      isPanic (__read_payload_ascii es lines) = false := by
  intro es
  induction es with
  | nil => intro lines; rfl
  | cons e es ih =>
    intro lines
    simp only [__read_payload_ascii]
    split
    next err he => exact no_panic_error (readAsciiRecords_no_panic e e.count lines) he
    next d hd =>
      split
      next err he => exact no_panic_error (ih _) he
      next r hr => rfl

/-- The binary payload dispatcher never panics. -/
theorem read_payload_binary_no_panic (bo : ByteOrder) :
    ∀ (es : List ElementDef) (s : List Nat),
      isPanic (__read_payload_binary bo es s) = false := by
  intro es
  induction es with
  | nil => intro s; rfl
  | cons e es ih =>
    intro s
    simp only [__read_payload_binary]
    split
    next err he =>
      exact okOrEof_error_no_panic (readBinaryRecords_okOrEof bo e e.count s)
        he
    next d hd =>
      split
      next err he => exact no_panic_error (ih _) he
      next r hr => rfl

/-- `__read_payload` never panics. -/
theorem read_payload_no_panic :
    ∀ (h : Header) (rest : List (List Char)),
      isPanic (__read_payload h rest) = false := by
  intro h rest
  unfold __read_payload
  split
  · rw [isPanic_map]; exact read_payload_ascii_no_panic _ _
  · rw [isPanic_map]; exact read_payload_binary_no_panic _ _ _
  · rw [isPanic_map]; exact read_payload_binary_no_panic _ _ _

/-- C9: every parser entry point returns a value or a reported error on
every input; no input reaches a panicking state — in particular the two
guarded `unwrap()` calls of `__read_header` (on `header_form_ver` and on
`pop_back()`) are unreachable in a panicking state, so the `panic` marker
never escapes any entry point. -/
theorem claim_c9 :
    ∀ (p : Parser) (input : List (List Char)) (line : List Char)
      (edef : ElementDef) (h : Header) (s : List Nat),
      isPanic (Parser.read_ply p input) = false
      ∧ isPanic (Parser.read_header p input) = false
      ∧ isPanic (Parser.read_header_line p line) = false
      ∧ isPanic (Parser.read_payload_for_element p input edef h) = false
      ∧ isPanic (Parser.read_ascii_element p line edef) = false
      ∧ isPanic (Parser.read_big_endian_element p s edef) = false
      ∧ isPanic (Parser.read_little_endian_element p s edef) = false := by
  intro p input line edef h s
  refine ⟨?_, ?_, ?_, ?_, ?_, ?_, ?_⟩
  · unfold Parser.read_ply
    split
    next e he => exact no_panic_error (read_header_no_panic input) he
    next hr hh =>
      split
      next e he => exact no_panic_error (read_payload_no_panic hr.1 hr.2) he
      next pl hpl => rfl
  · unfold Parser.read_header
    rw [isPanic_map]
    exact read_header_no_panic input
  · unfold Parser.read_header_line
    split <;> rfl
  · unfold Parser.read_payload_for_element
    split
    · rw [isPanic_map]; exact readAsciiRecords_no_panic edef edef.count input
    · rw [isPanic_map]
      exact okOrEof_no_panic (readBinaryRecords_okOrEof _ edef edef.count _)
    · rw [isPanic_map]
      exact okOrEof_no_panic (readBinaryRecords_okOrEof _ edef edef.count _)
  · exact readAsciiProps_no_panic _ _
  · rw [show Parser.read_big_endian_element p s edef
        = (__read_binary_element .big edef s).map (fun r => r.1) from rfl,
      isPanic_map]
    exact okOrEof_no_panic (readBinaryProps_okOrEof _ edef.properties s)
  · rw [show Parser.read_little_endian_element p s edef
        = (__read_binary_element .little edef s).map (fun r => r.1) from rfl,
      isPanic_map]
    exact okOrEof_no_panic (readBinaryProps_okOrEof _ edef.properties s)

/-- C10: the `Parser` holds no mutable state (only a `PhantomData`
marker), so parsing is deterministic: any two parser instances applied to
byte-for-byte equal inputs return equal results, for every entry point,
and reusing one instance across calls cannot change any call's outcome. -/
theorem claim_c10 :
    ∀ (p q : Parser) (in1 in2 : List (List Char)) (line : List Char)
      (edef : ElementDef) (h : Header) (s : List Nat),
      in1 = in2 →
      (Parser.read_ply p in1 = Parser.read_ply q in2
      ∧ Parser.read_header p in1 = Parser.read_header q in2
      ∧ Parser.read_header_line p line = Parser.read_header_line q line
      ∧ Parser.read_payload_for_element p in1 edef h
          = Parser.read_payload_for_element q in2 edef h
      ∧ Parser.read_ascii_element p line edef
          = Parser.read_ascii_element q line edef
      ∧ Parser.read_big_endian_element p s edef
          = Parser.read_big_endian_element q s edef
      ∧ Parser.read_little_endian_element p s edef
          = Parser.read_little_endian_element q s edef) := by
  intro p q in1 in2 line edef h s heq
  subst heq
  exact ⟨rfl, rfl, rfl, rfl, rfl, rfl, rfl⟩

/-- C10 witness: two fresh parser instances agree on the concrete C1 file
and the other entry points at concrete inputs. -/
theorem claim_c10_witness :
    Parser.read_ply Parser.new c1Input = Parser.read_ply Parser.new c1Input
    ∧ Parser.read_header Parser.new c1Input
        = Parser.read_header Parser.new c1Input
    ∧ Parser.read_header_line Parser.new "ply\n".data
        = Parser.read_header_line Parser.new "ply\n".data
    ∧ Parser.read_payload_for_element Parser.new c1Input c3Face pointHeader
        = Parser.read_payload_for_element Parser.new c1Input c3Face
            pointHeader
    ∧ Parser.read_ascii_element Parser.new "ply\n".data c3Face
        = Parser.read_ascii_element Parser.new "ply\n".data c3Face
    ∧ Parser.read_big_endian_element Parser.new [0, 1, 2, 3] c3Face
        = Parser.read_big_endian_element Parser.new [0, 1, 2, 3] c3Face
    ∧ Parser.read_little_endian_element Parser.new [0, 1, 2, 3] c3Face
        = Parser.read_little_endian_element Parser.new [0, 1, 2, 3] c3Face :=
  claim_c10 Parser.new Parser.new c1Input c1Input "ply\n".data c3Face
    pointHeader [0, 1, 2, 3] rfl

end PlyRs
